import Mathlib

/-!
Formal model of the gt-audit detection-matching and issue-classification
engine (src/models.rs, src/detector.rs, src/main.rs).

Modelling conventions:
* Rust `f32` values are modelled as exact rationals `ℚ`; the one place where
  the floating type itself matters (the `partial_cmp` unwrap on possibly-NaN
  confidences in `non_max_suppression`) is modelled separately with
  `Option ℚ` confidences, `none` standing for NaN.
* Image decoding and ONNX inference are external effects; the per-image audit
  functions take their outcomes (`Except String …`) as parameters.
* Rust `Result` is `Except String`; `?` is explicit propagation.
* `HashMap<String, usize>` maps built by `entry(k).or_insert(0) += 1` are
  modelled as association lists built by the same per-issue bump loop; the
  observable (lookup with default 0) agrees.
* Number formatting inside `format!` descriptions is elided: descriptions
  keep the fixed text and the interpolated class names / error text, which is
  what the specification talks about.
-/

namespace GTAudit

/-- Issue severity, from `src/models.rs` (`IssueSeverity`). -/
inductive IssueSeverity
  | High
  | Medium
  | Low
deriving DecidableEq, Repr

/-- Issue taxonomy, from `src/models.rs` (`IssueType`). -/
inductive IssueType
  | ClassMismatch
  | MissingLabel
  | SpuriousLabel
  | Localization
deriving DecidableEq, Repr

/-- Axis-aligned bounding box in center form, from `src/models.rs`
(`BoundingBox`); `f32` fields modelled as exact rationals. -/
structure BoundingBox where
  x : ℚ
  y : ℚ
  w : ℚ
  h : ℚ
deriving DecidableEq, Repr

namespace BoundingBox

/-- First corner abscissa `x1 = x - w/2` of `BoundingBox::to_xyxy`. -/
def x1 (b : BoundingBox) : ℚ := b.x - b.w / 2

/-- First corner ordinate `y1 = y - h/2` of `BoundingBox::to_xyxy`. -/
def y1 (b : BoundingBox) : ℚ := b.y - b.h / 2

/-- Second corner abscissa `x2 = x + w/2` of `BoundingBox::to_xyxy`. -/
def x2 (b : BoundingBox) : ℚ := b.x + b.w / 2

/-- Second corner ordinate `y2 = y + h/2` of `BoundingBox::to_xyxy`. -/
def y2 (b : BoundingBox) : ℚ := b.y + b.h / 2

/-- `BoundingBox::to_xyxy`: corner form `(x1, y1, x2, y2)`. -/
def to_xyxy (b : BoundingBox) : ℚ × ℚ × ℚ × ℚ := (b.x1, b.y1, b.x2, b.y2)

/-- Area `(x2 - x1) * (y2 - y1)` as computed inside `BoundingBox::iou`. -/
def area (b : BoundingBox) : ℚ := (b.x2 - b.x1) * (b.y2 - b.y1)

/-- Intersection area `max (x2-x1) 0 * max (y2-y1) 0` of the clipped
rectangle, as computed inside `BoundingBox::iou`. -/
def interArea (a b : BoundingBox) : ℚ :=
  max (min a.x2 b.x2 - max a.x1 b.x1) 0 * max (min a.y2 b.y2 - max a.y1 b.y1) 0

/-- Union area `area a + area b - intersection`, as computed inside
`BoundingBox::iou`. -/
def unionArea (a b : BoundingBox) : ℚ := area a + area b - interArea a b

/-- `BoundingBox::iou`: intersection over union, `0` when the union is not
positive. -/
def iou (a b : BoundingBox) : ℚ :=
  if unionArea a b > 0 then interArea a b / unionArea a b else 0

end BoundingBox

/-- One ground-truth label, from `src/models.rs` (the `Annotation` struct). -/
structure Annot where
  class_id : Int
  class_name : String
  bbox : BoundingBox
  line_num : Nat
deriving DecidableEq, Repr

/-- One model prediction after NMS, from `src/models.rs` (`Detection`). -/
structure Detection where
  class_name : String
  confidence : ℚ
  bbox : BoundingBox
deriving DecidableEq, Repr

/-- One detected discrepancy, from `src/models.rs` (`Issue`). -/
structure Issue where
  image : String
  severity : IssueSeverity
  issue_type : IssueType
  description : String
  gt_class : Option String
  detected_class : Option String
  confidence : Option ℚ
  iou : Option ℚ
  explanation : Option String
  line_num : Option Nat
deriving DecidableEq, Repr

/-- Audit outcome for one image, from `src/models.rs` (`ImageResult`). -/
structure ImageResult where
  filename : String
  gt_count : Nat
  detection_count : Nat
  issues : List Issue
deriving DecidableEq, Repr

namespace ImageResult

/-- `ImageResult::has_issues`. -/
def has_issues (r : ImageResult) : Bool := !r.issues.isEmpty

end ImageResult

/-- Whether `needle` is a leading segment of `hay` (character lists). -/
def leadsList : List Char → List Char → Bool
  | [], _ => true
  | _ :: _, [] => false
  | n :: ns, h :: hs => n == h && leadsList ns hs

/-- Whether `needle` occurs contiguously inside `hay` (character lists). -/
def subList (needle : List Char) : List Char → Bool
  | [] => leadsList needle []
  | h :: t => leadsList needle (h :: t) || subList needle t

/-- Rust `str::contains`: `needle` occurs as a substring of `hay`. -/
def strContains (hay needle : String) : Bool := subList needle.data hay.data

/-- Rust `str::to_lowercase`, character-wise (all synonym-table entries are
ASCII, where the two notions agree). -/
def rustLower (s : String) : String := String.mk (s.data.map Char.toLower)

/-- The fixed synonym-group table from `YoloDetector::classes_equivalent`. -/
def synonymGroups : List (List String) :=
  [["clothing", "dress", "suit", "jacket", "coat", "top", "shirt", "blouse"],
   ["footwear", "boot", "shoe", "sandal", "high heels", "sneaker"],
   ["bag", "handbag", "backpack", "briefcase", "luggage and bags", "purse"],
   ["pants", "jeans", "trousers", "shorts"],
   ["person", "human", "man", "woman", "people", "boy", "girl"]]

/-- The per-group membership test of `classes_equivalent`: some group member
is contained in the (lowercased) name, or contains it. -/
def inGroup (c : String) (group : List String) : Bool :=
  group.any (fun g => strContains c g || strContains g c)

/-- `YoloDetector::classes_equivalent` from `src/detector.rs`. -/
def classes_equivalent (class1 class2 : String) : Bool :=
  let c1 := rustLower class1
  let c2 := rustLower class2
  if c1 == c2 then true
  else synonymGroups.any (fun group => inGroup c1 group && inGroup c2 group)

/-- The sort key of `non_max_suppression`: the Rust comparator
`b.confidence.partial_cmp(&a.confidence)` sorts by confidence descending, so
`a` may precede `b` when `b.confidence ≤ a.confidence`. -/
def nmsLe (a b : Detection) : Bool := decide (b.confidence ≤ a.confidence)

/-- The suppression test inside `non_max_suppression`: a kept detection `d`
suppresses a later detection `e` when the class names are equal (string
equality) and their IoU exceeds the configured threshold. -/
def nmsSupp (thr : ℚ) (d e : Detection) : Bool :=
  d.class_name == e.class_name && decide (thr < d.bbox.iou e.bbox)

/-- The greedy suppression pass of `non_max_suppression` on the
confidence-sorted list: keep the head, drop every later same-class detection
whose IoU with it exceeds the threshold, recurse on the survivors. -/
def nmsKeep (thr : ℚ) : List Detection → List Detection
  | [] => []
  | d :: rest => d :: nmsKeep thr (rest.filter (fun e => !nmsSupp thr d e))
termination_by l => l.length
decreasing_by
  simp only [List.length_cons]
  exact Nat.lt_succ_of_le (List.length_filter_le _ _)

/-- `YoloDetector::non_max_suppression` from `src/detector.rs`: stable sort
by confidence descending, then the greedy suppression pass. -/
def non_max_suppression (dets : List Detection) (thr : ℚ) : List Detection :=
  nmsKeep thr (dets.mergeSort nmsLe)

/-- The best-match loop of `YoloDetector::audit_image`: starting from
`best_iou = 0`, `best_gt_idx = None`, scan the annotations in order and
record the first index attaining the strictly largest IoU with `det`. -/
def bestMatch (anns : List Annot) (det : Detection) : ℚ × Option Nat :=
  anns.enum.foldl
    (fun best p =>
      if det.bbox.iou p.2.bbox > best.1 then (det.bbox.iou p.2.bbox, some p.1) else best)
    (0, none)

/-- The `ClassMismatch` issue pushed by `YoloDetector::audit_image` when the
matched classes are not equivalent. -/
def mkClassMismatch (filename : String) (det : Detection) (gt : Annot) (best_iou : ℚ) :
    Issue :=
  { image := filename
    severity := IssueSeverity.High
    issue_type := IssueType.ClassMismatch
    description := "Model detects " ++ det.class_name ++ ", GT says " ++ gt.class_name
    gt_class := some gt.class_name
    detected_class := some det.class_name
    confidence := some det.confidence
    iou := some best_iou
    explanation := none
    line_num := some gt.line_num }

/-- The `MissingLabel` issue pushed by `YoloDetector::audit_image` when a
detection has no ground truth with IoU at least `0.3`. -/
def mkMissingLabel (filename : String) (det : Detection) : Issue :=
  { image := filename
    severity := IssueSeverity.Medium
    issue_type := IssueType.MissingLabel
    description := "Model detects " ++ det.class_name ++ " with no matching GT"
    gt_class := none
    detected_class := some det.class_name
    confidence := some det.confidence
    iou := none
    explanation := none
    line_num := none }

/-- The `SpuriousLabel` issue pushed by `YoloDetector::audit_image` for a
ground truth whose matched flag is still false after all detections. -/
def mkSpurious (filename : String) (ann : Annot) : Issue :=
  { image := filename
    severity := IssueSeverity.Low
    issue_type := IssueType.SpuriousLabel
    description := "GT has " ++ ann.class_name ++ " but model detects nothing there"
    gt_class := some ann.class_name
    detected_class := none
    confidence := none
    iou := none
    explanation := none
    line_num := some ann.line_num }

/-- The issues pushed by one iteration of the detection loop in
`YoloDetector::audit_image`. The loop body never reads the `matched_gt`
flags, so the emitted issues depend only on the annotations and the
detection: `best_iou >= 0.3` with a non-equivalent best ground truth emits a
`ClassMismatch`; `best_iou < 0.3` emits a `MissingLabel`. -/
def detIssues (filename : String) (anns : List Annot) (det : Detection) : List Issue :=
  let best := bestMatch anns det
  if (3 : ℚ) / 10 ≤ best.1 then
    match best.2 with
    | some gt_idx =>
      match anns[gt_idx]? with
      | some gt =>
        if classes_equivalent det.class_name gt.class_name then []
        else [mkClassMismatch filename det gt best.1]
      | none => []
    | none => []
  else [mkMissingLabel filename det]

/-- The `matched_gt` flag update of one iteration of the detection loop in
`YoloDetector::audit_image`: when `best_iou >= 0.3`, the best index's flag is
set to true (unconditionally, whether or not it was already set). -/
def detFlags (anns : List Annot) (det : Detection) (flags : List Bool) : List Bool :=
  let best := bestMatch anns det
  if (3 : ℚ) / 10 ≤ best.1 then
    match best.2 with
    | some gt_idx => flags.set gt_idx true
    | none => flags
  else flags

/-- The whole detection loop of `YoloDetector::audit_image`: fold over the
detections, threading the `matched_gt` flags and accumulating issues in
order. -/
def auditDetections (filename : String) (anns : List Annot) (dets : List Detection) :
    List Bool × List Issue :=
  dets.foldl
    (fun st det => (detFlags anns det st.1, st.2 ++ detIssues filename anns det))
    (List.replicate anns.length false, [])

/-- The phantom-ground-truth loop of `YoloDetector::audit_image`: one
`SpuriousLabel` issue per annotation whose matched flag is still false. -/
def spuriousIssues (filename : String) (anns : List Annot) (flags : List Bool) :
    List Issue :=
  anns.enum.filterMap
    (fun p => if flags.getD p.1 false then none else some (mkSpurious filename p.2))

/-- The full issue list produced by `YoloDetector::audit_image` for one image
that loaded and ran inference successfully: the detection-loop issues
followed by the spurious-label issues. -/
def yoloMatchIssues (filename : String) (anns : List Annot) (dets : List Detection) :
    List Issue :=
  let st := auditDetections filename anns dets
  st.2 ++ spuriousIssues filename anns st.1

/-- `YoloDetector::audit_image` from `src/detector.rs`. Image decoding and
`detect` (ONNX inference followed by NMS) are external effects passed in as
`Except` outcomes; both are propagated with `?`, the decode error gaining the
`context("Failed to load image")` text. -/
def YoloAudit (filename : String) (load : Except String Unit)
    (detectResult : Except String (List Detection)) (anns : List Annot) :
    Except String ImageResult :=
  match load with
  | Except.error e => Except.error ("Failed to load image: " ++ e)
  | Except.ok _ =>
    match detectResult with
    | Except.error e => Except.error e
    | Except.ok dets =>
      Except.ok
        { filename := filename
          gt_count := anns.length
          detection_count := dets.length
          issues := yoloMatchIssues filename anns dets }

/-- The bbox validity check of `ZeroShotDetector::audit_image`
(`-0.01 = -(1/100)`). -/
def bbox_valid (b : BoundingBox) : Bool :=
  decide (b.w > 0) && decide (b.h > 0) && decide (b.w ≤ 1) && decide (b.h ≤ 1) &&
  decide (b.x ≥ 0) && decide (b.y ≥ 0) && decide (b.x ≤ 1) && decide (b.y ≤ 1) &&
  decide (b.x - b.w / 2 ≥ -(1 / 100)) && decide (b.y - b.h / 2 ≥ -(1 / 100))

/-- The `Localization` issue pushed by `ZeroShotDetector::audit_image` for an
annotation failing `bbox_valid`. -/
def mkLocalization (filename : String) (ann : Annot) : Issue :=
  { image := filename
    severity := IssueSeverity.High
    issue_type := IssueType.Localization
    description := "Invalid bbox for " ++ ann.class_name
    gt_class := some ann.class_name
    detected_class := none
    confidence := none
    iou := none
    explanation := some "Bounding box coordinates out of valid range"
    line_num := some ann.line_num }

/-- The low-severity no-annotations issue pushed by
`ZeroShotDetector::audit_image` when a non-trivial image has no annotations.
The source encodes it with the `SpuriousLabel` type. -/
def mkNoAnnot (filename : String) : Issue :=
  { image := filename
    severity := IssueSeverity.Low
    issue_type := IssueType.SpuriousLabel
    description := "Image has no annotations"
    gt_class := none
    detected_class := none
    confidence := none
    iou := none
    explanation := none
    line_num := none }

/-- The image-load-failure issue pushed by `ZeroShotDetector::audit_image`;
the source encodes it with the `ClassMismatch` type for lack of a dedicated
kind, and carries the decode error text in the description. -/
def mkLoadFail (filename : String) (e : String) : Issue :=
  { image := filename
    severity := IssueSeverity.High
    issue_type := IssueType.ClassMismatch
    description := "Failed to load image: " ++ e
    gt_class := none
    detected_class := none
    confidence := none
    iou := none
    explanation := none
    line_num := none }

/-- `ZeroShotDetector::audit_image` from `src/detector.rs`. The image-load
outcome is passed in as an `Except` carrying the dimensions on success. A
load failure is recovered into a single issue and the function always returns
`Ok` in the source; the model therefore returns `ImageResult` directly. -/
def ZeroShotAudit (filename : String) (load : Except String (Nat × Nat))
    (anns : List Annot) : ImageResult :=
  match load with
  | Except.error e =>
    { filename := filename
      gt_count := anns.length
      detection_count := 0
      issues := [mkLoadFail filename e] }
  | Except.ok (width, height) =>
    let locIssues :=
      anns.filterMap
        (fun ann => if bbox_valid ann.bbox then none else some (mkLocalization filename ann))
    let noAnnIssues :=
      if anns.isEmpty && decide (width > 100) && decide (height > 100) then
        [mkNoAnnot filename]
      else []
    { filename := filename
      gt_count := anns.length
      detection_count := 0
      issues := locIssues ++ noAnnIssues }

/-- The `Display` key of an `IssueType`, used for the `by_type` map in
`AuditResult::update_summary`. -/
def typeKey : IssueType → String
  | IssueType.ClassMismatch => "class_mismatch"
  | IssueType.MissingLabel => "missing_label"
  | IssueType.SpuriousLabel => "spurious_label"
  | IssueType.Localization => "localization"

/-- The severity key used for the `by_severity` map in
`AuditResult::update_summary`. -/
def severityKey : IssueSeverity → String
  | IssueSeverity.High => "high"
  | IssueSeverity.Medium => "medium"
  | IssueSeverity.Low => "low"

/-- `*map.entry(k).or_insert(0) += 1` on an association-list model of
`HashMap<String, usize>`. -/
def bump (m : List (String × Nat)) (k : String) : List (String × Nat) :=
  match m with
  | [] => [(k, 1)]
  | (k2, v) :: rest => if k2 == k then (k2, v + 1) :: rest else (k2, v) :: bump rest k

/-- The severity/type counting loop of `AuditResult::update_summary`: one
bump of each map per issue, over every image result. -/
def countMaps (irs : List ImageResult) :
    List (String × Nat) × List (String × Nat) :=
  irs.foldl
    (fun ms r =>
      r.issues.foldl
        (fun ms2 i => (bump ms2.1 (severityKey i.severity), bump ms2.2 (typeKey i.issue_type)))
        ms)
    ([], [])

/-- `images_with_issues` as recomputed by `AuditResult::update_summary`. -/
def imagesWithIssuesOf (irs : List ImageResult) : Nat :=
  (irs.filter (fun r => r.has_issues)).length

/-- `total_issues` as recomputed by `AuditResult::update_summary`. -/
def totalIssuesOf (irs : List ImageResult) : Nat :=
  (irs.map (fun r => r.issues.length)).sum

/-- Dataset-level summary, from `src/models.rs` (`AuditSummary`); the two
`HashMap<String, usize>` fields are modelled as association lists. -/
structure AuditSummary where
  total_images : Nat
  images_audited : Nat
  images_with_issues : Nat
  total_issues : Nat
  by_severity : List (String × Nat)
  by_type : List (String × Nat)
deriving DecidableEq, Repr

/-- Dataset-level outcome, from `src/models.rs` (`AuditResult`). The
`generated_at` timestamp (wall clock) is omitted. -/
structure AuditResult where
  generator : String
  generator_version : String
  dataset_path : String
  method : String
  confidence_threshold : ℚ
  iou_threshold : ℚ
  total_images : Nat
  images_audited : Nat
  image_results : List ImageResult
  summary : AuditSummary
  flagged_images : List ImageResult
deriving DecidableEq, Repr

namespace AuditResult

/-- `AuditResult::new` from `src/models.rs`. -/
def new (dataset_path method : String) (confidence_threshold iou_threshold : ℚ)
    (total_images images_audited : Nat) : AuditResult :=
  { generator := "gt-audit"
    generator_version := "0.1.0"
    dataset_path := dataset_path
    method := method
    confidence_threshold := confidence_threshold
    iou_threshold := iou_threshold
    total_images := total_images
    images_audited := images_audited
    image_results := []
    summary :=
      { total_images := total_images
        images_audited := images_audited
        images_with_issues := 0
        total_issues := 0
        by_severity := []
        by_type := [] }
    flagged_images := [] }

/-- `AuditResult::update_summary` from `src/models.rs`: recompute the
counters from scratch over `image_results` and re-sort `flagged_images` by
issue count descending (stable). -/
def update_summary (ar : AuditResult) : AuditResult :=
  { ar with
    summary :=
      { ar.summary with
        images_with_issues := imagesWithIssuesOf ar.image_results
        total_issues := totalIssuesOf ar.image_results
        by_severity := (countMaps ar.image_results).1
        by_type := (countMaps ar.image_results).2 }
    flagged_images :=
      ar.flagged_images.mergeSort (fun a b => decide (b.issues.length ≤ a.issues.length)) }

/-- `AuditResult::add_image_result` from `src/models.rs`: push onto
`flagged_images` when flagged, push onto `image_results`, then
`update_summary`. -/
def add_image_result (ar : AuditResult) (r : ImageResult) : AuditResult :=
  update_summary
    { ar with
      flagged_images :=
        if r.has_issues then ar.flagged_images ++ [r] else ar.flagged_images
      image_results := ar.image_results ++ [r] }

end AuditResult

/-- The collection step of `run_validate` in `src/main.rs`: the per-image
worker results are gathered and then `results.into_iter().flatten()` keeps
only the `Ok` payloads, silently discarding every `Err`. -/
def processResults (rs : List (Except String ImageResult)) : List ImageResult :=
  rs.filterMap
    (fun r => match r with | Except.ok v => some v | Except.error _ => none)

/-- A detection whose `f32` confidence may be NaN (`none`); used to model
the `partial_cmp(..).unwrap()` in `non_max_suppression` faithfully. -/
structure DetectionF where
  class_name : String
  confidence : Option ℚ
  bbox : BoundingBox
deriving DecidableEq, Repr

/-- `f32::partial_cmp` on possibly-NaN values: `none` (and hence a panic at
the `unwrap`) exactly when either operand is NaN. -/
def pcmp (a b : Option ℚ) : Option Ordering :=
  match a, b with
  | some x, some y => some (compare x y)
  | _, _ => none

/-- The NMS sort comparator `|a, b| b.confidence.partial_cmp(&a.confidence)`
before its `unwrap`. -/
def cmpDet (a b : DetectionF) : Option Ordering := pcmp b.confidence a.confidence

/-- Stable insertion into an already-sorted list under the fallible NMS
comparator; `Except.error` models the panic of the comparator's `unwrap`. -/
def insertE (a : DetectionF) : List DetectionF → Except String (List DetectionF)
  | [] => Except.ok [a]
  | b :: bs =>
    match cmpDet a b with
    | none => Except.error "called Option unwrap on a None value"
    | some Ordering.gt =>
      match insertE a bs with
      | Except.error e => Except.error e
      | Except.ok r => Except.ok (b :: r)
    | some _ => Except.ok (a :: b :: bs)

/-- Stable sort under the fallible NMS comparator: the panic model of
`detections.sort_by(|a, b| b.confidence.partial_cmp(&a.confidence).unwrap())`.
For NaN-free inputs it produces the confidence-descending stable order. -/
def sortByE : List DetectionF → Except String (List DetectionF)
  | [] => Except.ok []
  | x :: xs =>
    match sortByE xs with
    | Except.error e => Except.error e
    | Except.ok s => insertE x s

/-- The suppression test of `non_max_suppression` on possibly-NaN
detections (the test itself never touches the confidences). -/
def nmsSuppF (thr : ℚ) (d e : DetectionF) : Bool :=
  d.class_name == e.class_name && decide (thr < d.bbox.iou e.bbox)

/-- The greedy suppression pass of `non_max_suppression` on possibly-NaN
detections. -/
def nmsKeepF (thr : ℚ) : List DetectionF → List DetectionF
  | [] => []
  | d :: rest => d :: nmsKeepF thr (rest.filter (fun e => !nmsSuppF thr d e))
termination_by l => l.length
decreasing_by
  simp only [List.length_cons]
  exact Nat.lt_succ_of_le (List.length_filter_le _ _)

/-- `YoloDetector::non_max_suppression` with the `f32` NaN case explicit:
the sort panics (returns `Except.error`) exactly when the comparator unwraps
`none`; otherwise the greedy pass runs on the sorted list. -/
def non_max_suppressionF (dets : List DetectionF) (thr : ℚ) :
    Except String (List DetectionF) :=
  match sortByE dets with
  | Except.error e => Except.error e
  | Except.ok s => Except.ok (nmsKeepF thr s)

/-- Sample box centred at `(0.5, 0.5)` with size `0.2 × 0.2`. -/
def boxMid : BoundingBox := { x := 1/2, y := 1/2, w := 1/5, h := 1/5 }

/-- Sample box disjoint from `boxMid`. -/
def boxFar : BoundingBox := { x := 1/10, y := 1/10, w := 1/10, h := 1/10 }

/-- Sample geometrically invalid box: `w = h = 2 > 1`. -/
def boxBig : BoundingBox := { x := 1/2, y := 1/2, w := 2, h := 2 }

/-- Sample ground-truth annotation labelled dog on `boxMid`. -/
def annDog : Annot := { class_id := 0, class_name := "dog", bbox := boxMid, line_num := 1 }

/-- Sample ground-truth annotation labelled dog on the invalid `boxBig`. -/
def annBad : Annot := { class_id := 0, class_name := "dog", bbox := boxBig, line_num := 1 }

/-- Sample detection labelled cat on `boxMid`. -/
def detCat : Detection := { class_name := "cat", confidence := 9/10, bbox := boxMid }

/-- Sample detection labelled dog on the invalid `boxBig`. -/
def detDogBig : Detection := { class_name := "dog", confidence := 9/10, bbox := boxBig }

/-- Sample NaN-free detection for the NMS panic model. -/
def detF1 : DetectionF := { class_name := "dog", confidence := some (9/10), bbox := boxMid }

/-- Second sample NaN-free detection for the NMS panic model. -/
def detF2 : DetectionF := { class_name := "cat", confidence := some (1/2), bbox := boxFar }

namespace BoundingBox

theorem area_eq (b : BoundingBox) : b.area = b.w * b.h := by
  unfold area x1 x2 y1 y2; ring

theorem x2_sub_x1 (b : BoundingBox) : b.x2 - b.x1 = b.w := by
  unfold x1 x2; ring

theorem y2_sub_y1 (b : BoundingBox) : b.y2 - b.y1 = b.h := by
  unfold y1 y2; ring

theorem interArea_comm (a b : BoundingBox) : interArea a b = interArea b a := by
  unfold interArea
  rw [min_comm a.x2, max_comm a.x1, min_comm a.y2, max_comm a.y1]

theorem unionArea_comm (a b : BoundingBox) : unionArea a b = unionArea b a := by
  unfold unionArea
  rw [interArea_comm]
  ring_nf

theorem iou_comm (a b : BoundingBox) : iou a b = iou b a := by
  unfold iou
  rw [interArea_comm, unionArea_comm]

theorem interArea_nonneg (a b : BoundingBox) : 0 ≤ interArea a b :=
  mul_nonneg (le_max_right _ _) (le_max_right _ _)

theorem interArea_le_area_left (a b : BoundingBox) (hw : 0 < a.w) (hh : 0 < a.h) :
    interArea a b ≤ a.area := by
  have hx := a.x2_sub_x1
  have hy := a.y2_sub_y1
  unfold interArea area
  have h1 : min a.x2 b.x2 - max a.x1 b.x1 ≤ a.x2 - a.x1 :=
    sub_le_sub (min_le_left _ _) (le_max_left _ _)
  have h2 : min a.y2 b.y2 - max a.y1 b.y1 ≤ a.y2 - a.y1 :=
    sub_le_sub (min_le_left _ _) (le_max_left _ _)
  exact mul_le_mul (max_le h1 (by linarith)) (max_le h2 (by linarith))
    (le_max_right _ _) (by linarith)

theorem interArea_le_area_right (a b : BoundingBox) (hw : 0 < b.w) (hh : 0 < b.h) :
    interArea a b ≤ b.area := by
  rw [interArea_comm]
  exact interArea_le_area_left b a hw hh

theorem unionArea_pos (a b : BoundingBox) (haw : 0 < a.w) (hah : 0 < a.h)
    (hbw : 0 < b.w) (hbh : 0 < b.h) : 0 < unionArea a b := by
  have h1 := interArea_le_area_right a b hbw hbh
  have h2 : 0 < a.area := by rw [area_eq]; exact mul_pos haw hah
  unfold unionArea
  linarith

theorem iou_nonneg (a b : BoundingBox) : 0 ≤ iou a b := by
  unfold iou
  split
  · exact div_nonneg (interArea_nonneg a b) (by linarith)
  · exact le_refl 0

theorem iou_le_one (a b : BoundingBox) (haw : 0 < a.w) (hah : 0 < a.h)
    (hbw : 0 < b.w) (hbh : 0 < b.h) : iou a b ≤ 1 := by
  have h1 := interArea_le_area_left a b haw hah
  have h2 := interArea_le_area_right a b hbw hbh
  have h3 := unionArea_pos a b haw hah hbw hbh
  unfold iou
  rw [if_pos h3]
  rw [div_le_one h3]
  unfold unionArea at h3 ⊢
  linarith

theorem interArea_self (a : BoundingBox) (hw : 0 < a.w) (hh : 0 < a.h) :
    interArea a a = a.w * a.h := by
  unfold interArea
  rw [min_self, max_self, min_self, max_self, a.x2_sub_x1, a.y2_sub_y1,
    max_eq_left hw.le, max_eq_left hh.le]

theorem iou_self (a : BoundingBox) (hw : 0 < a.w) (hh : 0 < a.h) : iou a a = 1 := by
  have hu : unionArea a a = a.w * a.h := by
    unfold unionArea
    rw [interArea_self a hw hh, area_eq]
    ring
  have hpos : (0 : ℚ) < a.w * a.h := mul_pos hw hh
  unfold iou
  rw [hu, interArea_self a hw hh, if_pos hpos, div_self hpos.ne.symm]

theorem iou_of_empty_inter (a b : BoundingBox)
    (h : min a.x2 b.x2 ≤ max a.x1 b.x1 ∨ min a.y2 b.y2 ≤ max a.y1 b.y1) :
    iou a b = 0 := by
  have hz : interArea a b = 0 := by
    unfold interArea
    rcases h with h | h
    · rw [max_eq_right (sub_nonpos.mpr h), zero_mul]
    · rw [max_eq_right (sub_nonpos.mpr h), mul_zero]
  unfold iou
  split
  · rw [hz, zero_div]
  · rfl

theorem iou_of_union_nonpos (a b : BoundingBox) (h : unionArea a b ≤ 0) :
    iou a b = 0 := by
  unfold iou
  rw [if_neg (not_lt.mpr h)]

end BoundingBox

/-- Claim C7: for all valid bounding boxes `a` and `b` (`w > 0`, `h > 0`),
`iou a b = iou b a` and `iou a b` lies in `[0, 1]`; identical boxes give IoU
exactly `1`; boxes with an empty intersection rectangle give IoU exactly `0`;
and whenever the computed union is not positive the result is `0` (for any
two boxes). -/
theorem claimC7 (a b : BoundingBox) (haw : 0 < a.w) (hah : 0 < a.h)
    (hbw : 0 < b.w) (hbh : 0 < b.h) :
    a.iou b = b.iou a ∧ 0 ≤ a.iou b ∧ a.iou b ≤ 1 ∧ a.iou a = 1 ∧
      (min a.x2 b.x2 ≤ max a.x1 b.x1 ∨ min a.y2 b.y2 ≤ max a.y1 b.y1 → a.iou b = 0) ∧
      (∀ c d : BoundingBox, c.unionArea d ≤ 0 → c.iou d = 0) :=
  ⟨BoundingBox.iou_comm a b, BoundingBox.iou_nonneg a b,
    BoundingBox.iou_le_one a b haw hah hbw hbh, BoundingBox.iou_self a haw hah,
    BoundingBox.iou_of_empty_inter a b,
    fun c d h => BoundingBox.iou_of_union_nonpos c d h⟩

/-- Witness for C7 at the concrete boxes `boxMid` and `boxFar`. -/
theorem claimC7_witness :
    boxMid.iou boxFar = boxFar.iou boxMid ∧ 0 ≤ boxMid.iou boxFar ∧
      boxMid.iou boxFar ≤ 1 ∧ boxMid.iou boxMid = 1 ∧
      (min boxMid.x2 boxFar.x2 ≤ max boxMid.x1 boxFar.x1 ∨
          min boxMid.y2 boxFar.y2 ≤ max boxMid.y1 boxFar.y1 →
        boxMid.iou boxFar = 0) ∧
      (∀ c d : BoundingBox, c.unionArea d ≤ 0 → c.iou d = 0) :=
  claimC7 boxMid boxFar (by norm_num [boxMid]) (by norm_num [boxMid])
    (by norm_num [boxFar]) (by norm_num [boxFar])

theorem leadsList_self : ∀ l : List Char, leadsList l l = true
  | [] => rfl
  | c :: t => by simp [leadsList, leadsList_self t]

theorem subList_self (l : List Char) : subList l l = true := by
  cases l with
  | nil => rfl
  | cons c t => simp [subList, leadsList_self]

theorem strContains_self (s : String) : strContains s s = true :=
  subList_self s.data

theorem inGroup_iff (c : String) (g : List String) :
    inGroup c g = true ↔
      ∃ m ∈ g, c = m ∨ strContains c m = true ∨ strContains m c = true := by
  unfold inGroup
  rw [List.any_eq_true]
  constructor
  · rintro ⟨m, hm, hp⟩
    rw [Bool.or_eq_true] at hp
    rcases hp with hp | hp
    · exact ⟨m, hm, Or.inr (Or.inl hp)⟩
    · exact ⟨m, hm, Or.inr (Or.inr hp)⟩
  · rintro ⟨m, hm, h⟩
    refine ⟨m, hm, ?_⟩
    rw [Bool.or_eq_true]
    rcases h with h | h | h
    · subst h
      exact Or.inl (strContains_self c)
    · exact Or.inl h
    · exact Or.inr h

/-- Claim C8: `classes_equivalent name1 name2` returns true if and only if
the two names are equal case-insensitively, or at least one synonym group
contains both names by the substring rule (the lowercased name equals a
group member, contains one as a substring, or is contained by one). -/
theorem claimC8 (n1 n2 : String) :
    classes_equivalent n1 n2 = true ↔
      (rustLower n1 = rustLower n2 ∨
        ∃ g ∈ synonymGroups,
          (∃ m ∈ g, rustLower n1 = m ∨ strContains (rustLower n1) m = true ∨
            strContains m (rustLower n1) = true) ∧
          (∃ m ∈ g, rustLower n2 = m ∨ strContains (rustLower n2) m = true ∨
            strContains m (rustLower n2) = true)) := by
  unfold classes_equivalent
  by_cases h : rustLower n1 = rustLower n2
  · rw [if_pos (show (rustLower n1 == rustLower n2) = true from beq_iff_eq.mpr h)]
    exact iff_of_true rfl (Or.inl h)
  · rw [if_neg (show ¬((rustLower n1 == rustLower n2) = true) from
      fun hc => h (beq_iff_eq.mp hc))]
    rw [or_iff_right h, List.any_eq_true]
    constructor
    · rintro ⟨g, hg, hp⟩
      rw [Bool.and_eq_true] at hp
      exact ⟨g, hg, (inGroup_iff _ g).mp hp.1, (inGroup_iff _ g).mp hp.2⟩
    · rintro ⟨g, hg, h1, h2⟩
      refine ⟨g, hg, ?_⟩
      rw [Bool.and_eq_true]
      exact ⟨(inGroup_iff _ g).mpr h1, (inGroup_iff _ g).mpr h2⟩

/-- Witness for C8: the equivalence applied to the concrete pair
`"Man"`/`"Person"`, which meet in the person synonym group. -/
theorem claimC8_witness :
    rustLower "Man" = rustLower "Person" ∨
      ∃ g ∈ synonymGroups,
        (∃ m ∈ g, rustLower "Man" = m ∨ strContains (rustLower "Man") m = true ∨
          strContains m (rustLower "Man") = true) ∧
        (∃ m ∈ g, rustLower "Person" = m ∨ strContains (rustLower "Person") m = true ∨
          strContains m (rustLower "Person") = true) :=
  (claimC8 "Man" "Person").mp (by decide)

theorem nmsKeep_nil (thr : ℚ) : nmsKeep thr [] = [] := by
  rw [nmsKeep]

theorem nmsKeep_cons (thr : ℚ) (d : Detection) (rest : List Detection) :
    nmsKeep thr (d :: rest) = d :: nmsKeep thr (rest.filter (fun e => !nmsSupp thr d e)) := by
  rw [nmsKeep]

theorem nmsKeep_sublist_aux (thr : ℚ) :
    ∀ (n : Nat) (l : List Detection), l.length ≤ n → List.Sublist (nmsKeep thr l) l
  | _, [], _ => by simp [nmsKeep_nil]
  | 0, _ :: _, h => by simp at h
  | n + 1, d :: rest, h => by
    rw [nmsKeep_cons]
    apply List.Sublist.cons₂
    have hlen : (rest.filter (fun e => !nmsSupp thr d e)).length ≤ n :=
      le_trans (List.length_filter_le _ _) (by simpa using h)
    exact (nmsKeep_sublist_aux thr n _ hlen).trans (List.filter_sublist _)

theorem nmsKeep_sublist (thr : ℚ) (l : List Detection) :
    List.Sublist (nmsKeep thr l) l :=
  nmsKeep_sublist_aux thr l.length l (le_refl _)

theorem nmsKeep_pairwise_aux (thr : ℚ) :
    ∀ (n : Nat) (l : List Detection), l.length ≤ n →
      (nmsKeep thr l).Pairwise (fun a b => nmsSupp thr a b = false)
  | _, [], _ => by simp [nmsKeep_nil]
  | 0, _ :: _, h => by simp at h
  | n + 1, d :: rest, h => by
    rw [nmsKeep_cons]
    have hlen : (rest.filter (fun e => !nmsSupp thr d e)).length ≤ n :=
      le_trans (List.length_filter_le _ _) (by simpa using h)
    refine List.Pairwise.cons ?_ (nmsKeep_pairwise_aux thr n _ hlen)
    intro b hb
    have hb2 : b ∈ rest.filter (fun e => !nmsSupp thr d e) :=
      (nmsKeep_sublist thr _).subset hb
    have hb3 := List.of_mem_filter hb2
    simpa using hb3

theorem nmsKeep_pairwise (thr : ℚ) (l : List Detection) :
    (nmsKeep thr l).Pairwise (fun a b => nmsSupp thr a b = false) :=
  nmsKeep_pairwise_aux thr l.length l (le_refl _)

theorem nmsKeep_eq_self (thr : ℚ) :
    ∀ l : List Detection, l.Pairwise (fun a b => nmsSupp thr a b = false) →
      nmsKeep thr l = l
  | [], _ => nmsKeep_nil thr
  | d :: rest, h => by
    rw [List.pairwise_cons] at h
    rw [nmsKeep_cons]
    have hf : rest.filter (fun e => !nmsSupp thr d e) = rest :=
      List.filter_eq_self.mpr (fun b hb => by simp [h.1 b hb])
    rw [hf, nmsKeep_eq_self thr rest h.2]

theorem nmsLe_trans : ∀ a b c : Detection, nmsLe a b → nmsLe b c → nmsLe a c := by
  intro a b c hab hbc
  simp only [nmsLe, decide_eq_true_eq] at hab hbc ⊢
  exact le_trans hbc hab

theorem nmsLe_total : ∀ a b : Detection, nmsLe a b || nmsLe b a := by
  intro a b
  simpa [nmsLe, Bool.or_eq_true, decide_eq_true_eq] using
    le_total b.confidence a.confidence

/-- Claim C6: non-maximum suppression is idempotent — for every detection
list and every IoU threshold, applying `non_max_suppression` to its own
output with the same threshold returns that output unchanged, in the same
order. -/
theorem claimC6 (dets : List Detection) (thr : ℚ) :
    non_max_suppression (non_max_suppression dets thr) thr =
      non_max_suppression dets thr := by
  unfold non_max_suppression
  have hs : (dets.mergeSort nmsLe).Pairwise (fun a b => nmsLe a b) :=
    List.sorted_mergeSort nmsLe_trans nmsLe_total dets
  have h1 : List.Sublist (nmsKeep thr (dets.mergeSort nmsLe)) (dets.mergeSort nmsLe) :=
    nmsKeep_sublist thr _
  have h2 : (nmsKeep thr (dets.mergeSort nmsLe)).Pairwise (fun a b => nmsLe a b) :=
    List.Pairwise.sublist h1 hs
  rw [List.mergeSort_of_sorted h2]
  exact nmsKeep_eq_self thr _ (nmsKeep_pairwise thr _)

theorem bestMatch_fold_fst (det : Detection) :
    ∀ (l : List (Nat × Annot)) (b : ℚ × Option Nat),
      (l.foldl (fun best p =>
        if det.bbox.iou p.2.bbox > best.1 then (det.bbox.iou p.2.bbox, some p.1) else best)
        b).1 =
      l.foldl (fun m p => max m (det.bbox.iou p.2.bbox)) b.1
  | [], _ => rfl
  | p :: t, b => by
    simp only [List.foldl_cons]
    rw [bestMatch_fold_fst det t]
    congr 1
    split
    · next h => exact (max_eq_right h.le).symm
    · next h => exact (max_eq_left (le_of_not_lt h)).symm

theorem foldl_enumFrom_snd (f : ℚ → Annot → ℚ) :
    ∀ (l : List Annot) (i : Nat) (c : ℚ),
      (List.enumFrom i l).foldl (fun m p => f m p.2) c = l.foldl f c
  | [], _, _ => rfl
  | a :: t, i, c => by
    simp only [List.enumFrom, List.foldl_cons]
    exact foldl_enumFrom_snd f t (i + 1) (f c a)

theorem bestMatch_fst (anns : List Annot) (det : Detection) :
    (bestMatch anns det).1 = (anns.map (fun a => det.bbox.iou a.bbox)).foldl max 0 := by
  unfold bestMatch
  rw [bestMatch_fold_fst det, List.foldl_map, List.enum]
  exact foldl_enumFrom_snd (fun m a => max m (det.bbox.iou a.bbox)) anns 0 0

theorem bestMatch_fold_some (det : Detection) :
    ∀ (l : List (Nat × Annot)) (b : ℚ × Option Nat), (b.2 = none → b.1 ≤ 0) →
      (l.foldl (fun best p =>
        if det.bbox.iou p.2.bbox > best.1 then (det.bbox.iou p.2.bbox, some p.1) else best)
        b).2 = none →
      (l.foldl (fun best p =>
        if det.bbox.iou p.2.bbox > best.1 then (det.bbox.iou p.2.bbox, some p.1) else best)
        b).1 ≤ 0
  | [], _, hb => hb
  | p :: t, b, hb => by
    simp only [List.foldl_cons]
    apply bestMatch_fold_some det t
    split
    · intro h
      simp at h
    · exact hb

theorem bestMatch_isSome (anns : List Annot) (det : Detection)
    (h : (3 : ℚ) / 10 ≤ (bestMatch anns det).1) :
    ∃ k, (bestMatch anns det).2 = some k := by
  cases hm : (bestMatch anns det).2 with
  | some k => exact ⟨k, rfl⟩
  | none =>
    unfold bestMatch at hm h
    have := bestMatch_fold_some det anns.enum (0, none) (by simp) hm
    linarith

/-- Claim C5: for every detection processed by the matcher, if the maximum
IoU against the ground-truth boxes is at least `0.3` (inclusive boundary,
`>=` in the source) the detection is treated as matched — a best index
exists and no `MissingLabel` issue is emitted for it; if the maximum IoU is
strictly below `0.3` (including the empty-ground-truth case, where the
maximum is `0`) exactly one Medium-severity `MissingLabel` issue is emitted.
The final conjunct identifies the loop's `best_iou` with the maximum IoU
over the annotation list. -/
theorem claimC5 (filename : String) (anns : List Annot) (det : Detection) :
    ((3 : ℚ) / 10 ≤ (bestMatch anns det).1 →
      (∃ k, (bestMatch anns det).2 = some k) ∧
        ∀ i ∈ detIssues filename anns det, i.issue_type ≠ IssueType.MissingLabel) ∧
    ((bestMatch anns det).1 < (3 : ℚ) / 10 →
      detIssues filename anns det = [mkMissingLabel filename det] ∧
        (mkMissingLabel filename det).severity = IssueSeverity.Medium ∧
        (mkMissingLabel filename det).issue_type = IssueType.MissingLabel) ∧
    (bestMatch anns det).1 = (anns.map (fun a => det.bbox.iou a.bbox)).foldl max 0 := by
  refine ⟨?_, ?_, bestMatch_fst anns det⟩
  · intro h
    refine ⟨bestMatch_isSome anns det h, ?_⟩
    intro i hi
    simp only [detIssues] at hi
    rw [if_pos h] at hi
    split at hi
    · split at hi
      · split at hi
        · simp at hi
        · rw [List.mem_singleton] at hi
          subst hi
          simp [mkClassMismatch]
      · simp at hi
    · simp at hi
  · intro h
    simp only [detIssues]
    rw [if_neg (not_le.mpr h)]
    exact ⟨rfl, rfl, rfl⟩

/-- Witness for C5: with no ground-truth boxes the maximum IoU is `0 < 0.3`
and the concrete cat detection receives exactly one `MissingLabel` issue. -/
theorem claimC5_witness :
    detIssues "img.jpg" [] detCat = [mkMissingLabel "img.jpg" detCat] :=
  ((claimC5 "img.jpg" [] detCat).2.1 (by norm_num [bestMatch])).1

theorem add_image_result_image_results (ar : AuditResult) (r : ImageResult) :
    (ar.add_image_result r).image_results = ar.image_results ++ [r] := rfl

theorem foldl_add_image_results :
    ∀ (rs : List ImageResult) (ar : AuditResult),
      (rs.foldl AuditResult.add_image_result ar).image_results = ar.image_results ++ rs
  | [], ar => by simp
  | r :: t, ar => by
    simp only [List.foldl_cons]
    rw [foldl_add_image_results t, add_image_result_image_results]
    simp

theorem foldl_add_summary :
    ∀ (rs : List ImageResult) (ar : AuditResult),
      (ar.summary.images_with_issues = imagesWithIssuesOf ar.image_results ∧
        ar.summary.total_issues = totalIssuesOf ar.image_results ∧
        ar.summary.by_severity = (countMaps ar.image_results).1 ∧
        ar.summary.by_type = (countMaps ar.image_results).2) →
      ((rs.foldl AuditResult.add_image_result ar).summary.images_with_issues =
          imagesWithIssuesOf (rs.foldl AuditResult.add_image_result ar).image_results ∧
        (rs.foldl AuditResult.add_image_result ar).summary.total_issues =
          totalIssuesOf (rs.foldl AuditResult.add_image_result ar).image_results ∧
        (rs.foldl AuditResult.add_image_result ar).summary.by_severity =
          (countMaps (rs.foldl AuditResult.add_image_result ar).image_results).1 ∧
        (rs.foldl AuditResult.add_image_result ar).summary.by_type =
          (countMaps (rs.foldl AuditResult.add_image_result ar).image_results).2)
  | [], _ => fun h => h
  | r :: t, ar => fun _ => by
    simp only [List.foldl_cons]
    exact foldl_add_summary t (ar.add_image_result r) ⟨rfl, rfl, rfl, rfl⟩

/-- Claim C9: aggregation is drift-free and idempotent — folding
`add_image_result` over any collection of image results starting from a
fresh `AuditResult` stores exactly that collection and a summary equal to
the from-scratch recomputation over it (total issues, images with issues,
per-severity counts, per-type counts), and recomputing the summary twice
yields identical counts. -/
theorem claimC9 (dp m : String) (ct it : ℚ) (ti ia : Nat) (rs : List ImageResult) :
    (rs.foldl AuditResult.add_image_result (AuditResult.new dp m ct it ti ia)).image_results
        = rs ∧
    (rs.foldl AuditResult.add_image_result (AuditResult.new dp m ct it ti ia)).summary.total_issues
        = totalIssuesOf rs ∧
    (rs.foldl AuditResult.add_image_result
        (AuditResult.new dp m ct it ti ia)).summary.images_with_issues
        = imagesWithIssuesOf rs ∧
    (rs.foldl AuditResult.add_image_result (AuditResult.new dp m ct it ti ia)).summary.by_severity
        = (countMaps rs).1 ∧
    (rs.foldl AuditResult.add_image_result (AuditResult.new dp m ct it ti ia)).summary.by_type
        = (countMaps rs).2 ∧
    ∀ ar : AuditResult, ar.update_summary.update_summary.summary = ar.update_summary.summary := by
  have himg : (rs.foldl AuditResult.add_image_result
      (AuditResult.new dp m ct it ti ia)).image_results = rs := by
    rw [foldl_add_image_results rs]
    rfl
  have hsum := foldl_add_summary rs (AuditResult.new dp m ct it ti ia) ⟨rfl, rfl, rfl, rfl⟩
  rw [himg] at hsum
  exact ⟨himg, hsum.2.1, hsum.1, hsum.2.2.1, hsum.2.2.2, fun ar => rfl⟩

theorem insertE_ok :
    ∀ (l : List DetectionF) (a : DetectionF), a.confidence.isSome = true →
      (∀ b ∈ l, b.confidence.isSome = true) →
      ∃ r, insertE a l = Except.ok r ∧ ∀ x ∈ r, x.confidence.isSome = true
  | [], a, ha, _ => ⟨[a], rfl, by simpa⟩
  | b :: bs, a, ha, hl => by
    have hb : b.confidence.isSome = true := hl b (List.mem_cons_self b bs)
    obtain ⟨x, hx⟩ := Option.isSome_iff_exists.mp ha
    obtain ⟨y, hy⟩ := Option.isSome_iff_exists.mp hb
    have hcmp : cmpDet a b = some (compare y x) := by
      simp [cmpDet, pcmp, hx, hy]
    cases hord : compare y x with
    | gt =>
      rw [hord] at hcmp
      obtain ⟨r, hr, hrall⟩ :=
        insertE_ok bs a ha (fun c hc => hl c (List.mem_cons_of_mem b hc))
      refine ⟨b :: r, ?_, ?_⟩
      · simp only [insertE, hcmp, hr]
      · intro z hz
        rcases List.mem_cons.mp hz with hz | hz
        · exact hz ▸ hb
        · exact hrall z hz
    | lt =>
      rw [hord] at hcmp
      refine ⟨a :: b :: bs, by simp only [insertE, hcmp], ?_⟩
      intro z hz
      rcases List.mem_cons.mp hz with hz | hz
      · exact hz ▸ ha
      · exact hl z hz
    | eq =>
      rw [hord] at hcmp
      refine ⟨a :: b :: bs, by simp only [insertE, hcmp], ?_⟩
      intro z hz
      rcases List.mem_cons.mp hz with hz | hz
      · exact hz ▸ ha
      · exact hl z hz

theorem sortByE_ok :
    ∀ l : List DetectionF, (∀ b ∈ l, b.confidence.isSome = true) →
      ∃ s, sortByE l = Except.ok s ∧ ∀ x ∈ s, x.confidence.isSome = true
  | [], _ => ⟨[], rfl, by simp⟩
  | x :: xs, hl => by
    obtain ⟨s, hs, hsall⟩ :=
      sortByE_ok xs (fun c hc => hl c (List.mem_cons_of_mem x hc))
    obtain ⟨r, hr, hrall⟩ := insertE_ok s x (hl x (List.mem_cons_self x xs)) hsall
    exact ⟨r, by simp only [sortByE, hs, hr], hrall⟩

/-- Claim C10: `non_max_suppression` returns normally (never panics) for
every input detection list in which every confidence is non-NaN: the
comparator's `unwrap` is unreachable under that precondition, so the
NaN-explicit model always returns `Except.ok`. -/
theorem claimC10 (dets : List DetectionF) (thr : ℚ)
    (h : ∀ d ∈ dets, d.confidence.isSome = true) :
    ∃ out, non_max_suppressionF dets thr = Except.ok out := by
  obtain ⟨s, hs, _⟩ := sortByE_ok dets h
  exact ⟨nmsKeepF thr s, by simp only [non_max_suppressionF, hs]⟩

/-- Witness for C10 at two concrete NaN-free detections. -/
theorem claimC10_witness :
    (∀ d ∈ [detF1, detF2], d.confidence.isSome = true) ∧
      ∃ out, non_max_suppressionF [detF1, detF2] (1 / 2) = Except.ok out :=
  ⟨by decide, claimC10 [detF1, detF2] (1 / 2) (by decide)⟩

/-- Counterexample to C1 as stated: in model-based mode a decode failure
does not yield an `ImageResult` with one High issue — `audit_image`
propagates the error (`?` on `image::open`), and the batch collection step
drops the errored image entirely, so it is silently omitted from the
aggregated result. -/
theorem claimC1_counterexample :
    YoloAudit "img.jpg" (Except.error "decode error") (Except.ok []) [] =
        Except.error "Failed to load image: decode error" ∧
      processResults
          [YoloAudit "img.jpg" (Except.error "decode error") (Except.ok []) []] = [] :=
  ⟨rfl, rfl⟩

/-- Claim C1 as amended: only heuristic-only mode recovers a decode failure
into a normal `ImageResult` with exactly one High-severity issue carrying
the decode error text; model-based `audit_image` returns the error, and the
batch collection (`flatten`) drops that image from the aggregation without
aborting the batch — a silent omission. -/
theorem claimC1_amended (fname e : String) (anns : List Annot)
    (dr : Except String (List Detection)) (rs : List (Except String ImageResult)) :
    (ZeroShotAudit fname (Except.error e) anns).issues = [mkLoadFail fname e] ∧
      (mkLoadFail fname e).severity = IssueSeverity.High ∧
      (mkLoadFail fname e).description = "Failed to load image: " ++ e ∧
      (∃ msg, YoloAudit fname (Except.error e) dr anns = Except.error msg) ∧
      processResults (rs ++ [YoloAudit fname (Except.error e) dr anns]) =
        processResults rs := by
  refine ⟨rfl, rfl, rfl, ⟨"Failed to load image: " ++ e, rfl⟩, ?_⟩
  unfold processResults
  rw [List.filterMap_append]
  simp [YoloAudit]

/-- Counterexample to C2 as stated: in model-based mode a geometrically
invalid annotation (`w = 2 > 1`) produces no Localization issue at all and
still participates in IoU matching (it is matched with IoU `1`). -/
theorem claimC2_counterexample :
    bbox_valid boxBig = false ∧ boxBig.w > 1 ∧
      yoloMatchIssues "img.jpg" [annBad] [detDogBig] = [] ∧
      (bestMatch [annBad] detDogBig).1 = 1 := by
  have hiou : boxBig.iou boxBig = 1 :=
    BoundingBox.iou_self boxBig (by norm_num [boxBig]) (by norm_num [boxBig])
  have hbm : bestMatch [annBad] detDogBig = (1, some 0) := by
    simp [bestMatch, List.enum, List.enumFrom, annBad, detDogBig, hiou]
  have hce : classes_equivalent detDogBig.class_name annBad.class_name = true := by
    decide
  have hdi : detIssues "img.jpg" [annBad] detDogBig = [] := by
    simp only [detIssues, hbm]
    norm_num [hce]
  have hdf : detFlags [annBad] detDogBig [false] = [true] := by
    simp only [detFlags, hbm]
    norm_num
  refine ⟨by norm_num [bbox_valid, boxBig], by norm_num [boxBig], ?_, by rw [hbm]⟩
  simp [yoloMatchIssues, auditDetections, hdi, hdf, spuriousIssues, List.enum,
    List.enumFrom]

theorem countP_locIssues (fname : String) :
    ∀ anns : List Annot,
      ((anns.filterMap (fun ann =>
          if bbox_valid ann.bbox then none else some (mkLocalization fname ann))).countP
        (fun i => decide (i.issue_type = IssueType.Localization))) =
      anns.countP (fun ann => !bbox_valid ann.bbox)
  | [] => rfl
  | a :: t => by
    rw [List.filterMap_cons, List.countP_cons]
    by_cases hv : bbox_valid a.bbox = true
    · rw [if_pos hv]
      rw [countP_locIssues fname t]
      simp [hv]
    · rw [if_neg hv]
      rw [List.countP_cons]
      rw [countP_locIssues fname t]
      simp [Bool.not_eq_true] at hv
      simp [hv, mkLocalization]

/-- Claim C2 as amended: geometric validation happens only in heuristic-only
mode and uses the code's validity predicate (`bbox_valid`): every annotation
failing it yields one High-severity Localization issue there, and the
number of Localization issues is exactly the number of invalid annotations.
Model-based mode performs no geometric validation, and heuristic mode runs
no IoU matching, so the exclusion-from-matching clause is vacuous. -/
theorem claimC2_amended (fname : String) (w h : Nat) (anns : List Annot) :
    (∀ ann ∈ anns, bbox_valid ann.bbox = false →
        mkLocalization fname ann ∈ (ZeroShotAudit fname (Except.ok (w, h)) anns).issues) ∧
      (ZeroShotAudit fname (Except.ok (w, h)) anns).issues.countP
          (fun i => decide (i.issue_type = IssueType.Localization)) =
        anns.countP (fun ann => !bbox_valid ann.bbox) ∧
      ∀ i ∈ (ZeroShotAudit fname (Except.ok (w, h)) anns).issues,
        i.issue_type = IssueType.Localization → i.severity = IssueSeverity.High := by
  refine ⟨?_, ?_, ?_⟩
  · intro ann hann hinv
    simp only [ZeroShotAudit]
    rw [List.mem_append]
    left
    rw [List.mem_filterMap]
    exact ⟨ann, hann, by rw [if_neg (by simp [hinv])]⟩
  · simp only [ZeroShotAudit]
    rw [List.countP_append, countP_locIssues fname anns]
    have h0 : (if anns.isEmpty && decide (w > 100) && decide (h > 100) then
        [mkNoAnnot fname] else []).countP
          (fun i => decide (i.issue_type = IssueType.Localization)) = 0 := by
      split
      · simp [mkNoAnnot]
      · simp
    rw [h0, Nat.add_zero]
  · intro i hi ht
    simp only [ZeroShotAudit] at hi
    rw [List.mem_append] at hi
    rcases hi with hi | hi
    · rw [List.mem_filterMap] at hi
      obtain ⟨ann, _, hsome⟩ := hi
      split at hsome
      · simp at hsome
      · rw [Option.some_inj] at hsome
        rw [← hsome]
        rfl
    · split at hi
      · rw [List.mem_singleton] at hi
        rw [hi] at ht
        exact absurd ht (by simp [mkNoAnnot])
      · simp at hi

/-- Witness for the amended C2: the concrete invalid annotation `annBad`
receives its Localization issue in heuristic-only mode. -/
theorem claimC2_amended_witness :
    mkLocalization "img.jpg" annBad ∈
      (ZeroShotAudit "img.jpg" (Except.ok (200, 200)) [annBad]).issues :=
  (claimC2_amended "img.jpg" 200 200 [annBad]).1 annBad (List.mem_singleton.mpr rfl)
    (by norm_num [bbox_valid, annBad, boxBig])

/-- Counterexample to C3 as stated: one ground-truth annotation claimed by
two detections (both with best IoU `1` against it and a non-equivalent
class) receives two `ClassMismatch` issues — the matched flag does not
suppress the second class comparison. -/
theorem claimC3_counterexample :
    (yoloMatchIssues "img.jpg" [annDog] [detCat, detCat]).countP
        (fun i => decide (i.issue_type = IssueType.ClassMismatch)) = 2 ∧
      [annDog].length = 1 := by
  have hiou : boxMid.iou boxMid = 1 :=
    BoundingBox.iou_self boxMid (by norm_num [boxMid]) (by norm_num [boxMid])
  have hbm : bestMatch [annDog] detCat = (1, some 0) := by
    simp [bestMatch, List.enum, List.enumFrom, annDog, detCat, hiou]
  have hce : classes_equivalent detCat.class_name annDog.class_name = false := by
    decide
  have hdi : detIssues "img.jpg" [annDog] detCat =
      [mkClassMismatch "img.jpg" detCat annDog 1] := by
    simp only [detIssues, hbm]
    norm_num [hce]
  have hdf : ∀ flags : List Bool, detFlags [annDog] detCat flags = flags.set 0 true := by
    intro flags
    simp only [detFlags, hbm]
    norm_num
  refine ⟨?_, rfl⟩
  simp [yoloMatchIssues, auditDetections, hdi, hdf, spuriousIssues, List.enum,
    List.enumFrom, mkClassMismatch]

theorem auditDetections_snd_aux (filename : String) (anns : List Annot) :
    ∀ (dets : List Detection) (flags : List Bool) (issues : List Issue),
      (dets.foldl
        (fun st det => (detFlags anns det st.1, st.2 ++ detIssues filename anns det))
        (flags, issues)).2 =
      issues ++ (dets.map (detIssues filename anns)).flatten
  | [], _, _ => by simp
  | d :: t, flags, issues => by
    simp only [List.foldl_cons, List.map_cons, List.flatten_cons]
    rw [auditDetections_snd_aux filename anns t, List.append_assoc]

theorem spuriousIssues_all_spurious (filename : String) (anns : List Annot)
    (flags : List Bool) :
    ∀ i ∈ spuriousIssues filename anns flags, i.issue_type = IssueType.SpuriousLabel := by
  intro i hi
  unfold spuriousIssues at hi
  rw [List.mem_filterMap] at hi
  obtain ⟨p, _, hsome⟩ := hi
  split at hsome
  · simp at hsome
  · rw [Option.some_inj] at hsome
    rw [← hsome]
    rfl

/-- Claim C3 as amended: the detection loop re-triggers class comparison
regardless of the matched flags — the issues it emits are exactly the
concatenation, over the detections in order, of each detection's own issues
(computed from the annotations alone, the loop body never reads
`matched_gt`), so one `ClassMismatch` can be emitted per qualifying
detection rather than at most one per ground-truth annotation; the matched
flag only suppresses `SpuriousLabel` issues, which contribute no
`ClassMismatch` count. -/
theorem claimC3_amended (filename : String) (anns : List Annot) (dets : List Detection) :
    (auditDetections filename anns dets).2 = (dets.map (detIssues filename anns)).flatten ∧
      (yoloMatchIssues filename anns dets).countP
          (fun i => decide (i.issue_type = IssueType.ClassMismatch)) =
        ((dets.map (detIssues filename anns)).flatten).countP
          (fun i => decide (i.issue_type = IssueType.ClassMismatch)) := by
  have h1 : (auditDetections filename anns dets).2 =
      (dets.map (detIssues filename anns)).flatten := by
    unfold auditDetections
    rw [auditDetections_snd_aux filename anns dets]
    simp
  refine ⟨h1, ?_⟩
  unfold yoloMatchIssues
  rw [List.countP_append, h1]
  have h2 : (spuriousIssues filename anns (auditDetections filename anns dets).1).countP
      (fun i => decide (i.issue_type = IssueType.ClassMismatch)) = 0 := by
    rw [List.countP_eq_zero]
    intro i hi
    have := spuriousIssues_all_spurious filename anns _ i hi
    simp [this]
  rw [h2, Nat.add_zero]

/-- Counterexample to C4 as stated: in heuristic-only mode a decode failure
produces an issue whose type is `ClassMismatch`, not Localization or the
low-severity no-annotations kind. -/
theorem claimC4_counterexample :
    (ZeroShotAudit "img.jpg" (Except.error "boom") []).issues.map
        (fun i => i.issue_type) = [IssueType.ClassMismatch] :=
  rfl

/-- Claim C4 as amended: in heuristic-only mode, for every image that loads
successfully every issue is a High-severity Localization or the Low-severity
no-annotations issue (`SpuriousLabel`-typed); on load failure a single
`ClassMismatch`-typed High issue is emitted; in no case is a `MissingLabel`
issue possible. -/
theorem claimC4_amended (fname : String) (w h : Nat) (anns : List Annot)
    (load : Except String (Nat × Nat)) :
    (∀ i ∈ (ZeroShotAudit fname (Except.ok (w, h)) anns).issues,
        (i.issue_type = IssueType.Localization ∧ i.severity = IssueSeverity.High) ∨
          (i.issue_type = IssueType.SpuriousLabel ∧ i.severity = IssueSeverity.Low)) ∧
      ∀ i ∈ (ZeroShotAudit fname load anns).issues,
        i.issue_type ≠ IssueType.MissingLabel := by
  have hok : ∀ (w2 h2 : Nat), ∀ i ∈ (ZeroShotAudit fname (Except.ok (w2, h2)) anns).issues,
      (i.issue_type = IssueType.Localization ∧ i.severity = IssueSeverity.High) ∨
        (i.issue_type = IssueType.SpuriousLabel ∧ i.severity = IssueSeverity.Low) := by
    intro w2 h2 i hi
    simp only [ZeroShotAudit] at hi
    rw [List.mem_append] at hi
    rcases hi with hi | hi
    · rw [List.mem_filterMap] at hi
      obtain ⟨ann, _, hsome⟩ := hi
      split at hsome
      · simp at hsome
      · rw [Option.some_inj] at hsome
        rw [← hsome]
        exact Or.inl ⟨rfl, rfl⟩
    · split at hi
      · rw [List.mem_singleton] at hi
        rw [hi]
        exact Or.inr ⟨rfl, rfl⟩
      · simp at hi
  refine ⟨hok w h, ?_⟩
  cases load with
  | error e =>
    intro i hi
    rw [show (ZeroShotAudit fname (Except.error e) anns).issues =
      [mkLoadFail fname e] from rfl, List.mem_singleton] at hi
    rw [hi]
    simp [mkLoadFail]
  | ok dims =>
    intro i hi
    rcases hok dims.1 dims.2 i hi with ⟨ht, _⟩ | ⟨ht, _⟩ <;> simp [ht]

/-- Witness for the amended C4: the concrete load-failure issue is not a
`MissingLabel`. -/
theorem claimC4_amended_witness :
    (mkLoadFail "img.jpg" "boom").issue_type ≠ IssueType.MissingLabel :=
  (claimC4_amended "img.jpg" 0 0 [] (Except.error "boom")).2 (mkLoadFail "img.jpg" "boom")
    (List.mem_singleton.mpr rfl)

end GTAudit
